import Mathlib

/-!
Verification of the protocol engine of the pyOxygenSCPI client
(`pyOxygenSCPI/oxygenscpi.py`): version predicate, value decoding
(binary float32 blocks and ASCII tokens), dimension grouping, the
connection retry loop, version gating and transport-error handling.
Python floats appearing in payloads are modelled exactly as rationals
(every IEEE-754 float is a rational; the inputs of interest are exact).
-/

set_option maxRecDepth 4000

namespace OxygenSCPI

/-- `is_minimum_version(version, min_version)` from the source:
returns True if `version[0] > min_version[0]`, False if
`version[0] < min_version[0]`, else `version[1] >= min_version[1]`.
Versions are pairs of Python ints, modelled as `Int × Int`. -/
def is_minimum_version (version min_version : Int × Int) : Bool :=
  if version.1 > min_version.1 then true
  else if version.1 < min_version.1 then false
  else version.2 ≥ min_version.2

/-- `OxygenSCPI.NumberFormat` enum from the source:
ASCII = 0, BINARY_INTEL = 1, BINARY_MOTOROLA = 2. -/
inductive NumberFormat
  | ascii
  | binary_intel
  | binary_motorola
deriving DecidableEq, Repr

/-- The exact value of an IEEE-754 binary32 datum: a finite value is an
exact rational; infinities and NaN are separate tags. -/
inductive F32
  | finite (q : ℚ)
  | posInf
  | negInf
  | nan
deriving DecidableEq, Repr

/-- Decode a 32-bit word (sign/exponent/fraction fields) as an IEEE-754
binary32 value, exactly. -/
def f32OfBits (w : Nat) : F32 :=
  let sign : Nat := w / 2 ^ 31 % 2
  let ex : Nat := w / 2 ^ 23 % 2 ^ 8
  let frac : Nat := w % 2 ^ 23
  if ex = 255 then
    if frac = 0 then (if sign = 1 then .negInf else .posInf) else .nan
  else
    let mag : ℚ :=
      if ex = 0 then (frac : ℚ) / ((2 ^ 149 : Nat) : ℚ)
      else if ex ≥ 150 then ((2 ^ 23 + frac : Nat) : ℚ) * ((2 ^ (ex - 150) : Nat) : ℚ)
      else ((2 ^ 23 + frac : Nat) : ℚ) / ((2 ^ (150 - ex) : Nat) : ℚ)
    .finite (if sign = 1 then -mag else mag)

/-- Assemble a 32-bit word from four bytes given least-significant first. -/
def wordOfBytes (b0 b1 b2 b3 : Nat) : Nat :=
  b0 + 256 * (b1 + 256 * (b2 + 256 * b3))

/-- `struct.unpack(byteorder + "f"*(len(data)//4), data)`: decode
consecutive 4-byte groups as binary32 values; `big` selects the ">"
(Motorola) byte order, otherwise "<" (Intel). A trailing group of fewer
than 4 bytes is never present at the call site (guarded by a length
check modelling `struct.error`). -/
def unpackF32s (big : Bool) : List Nat → List F32
  | b0 :: b1 :: b2 :: b3 :: rest =>
    (if big then f32OfBits (wordOfBytes b3 b2 b1 b0)
     else f32OfBits (wordOfBytes b0 b1 b2 b3)) :: unpackF32s big rest
  | _ => []

/-- Python `int(bytes)` restricted to the shapes produced by the device:
a non-empty string of ASCII decimal digits parses to its value, anything
else raises ValueError (`none`). (Sign/whitespace/underscore forms of
Python's `int` are not modelled; the length fields at the call site are
plain digit runs.) -/
def pyIntOfBytes (bs : List Nat) : Option Nat :=
  if bs ≠ [] ∧ bs.all (fun b => 48 ≤ b && b ≤ 57) then
    some (bs.foldl (fun a b => a * 10 + (b - 48)) 0)
  else none

/-- `OxygenSCPI._get_value_from_binary(data)` from the source, with the
active `self._value_format` passed explicitly.  `numlenchars`
is `int(chr(data[1]))` (ValueError on a non-digit → `none`);
`array_length` is `int(data[2:2+numlenchars])`; the payload is the slice
`data[2+numlenchars : 2+numlenchars+array_length]`; byte order is "<"
unless the format is BINARY_MOTOROLA; `struct.unpack` raises
(`none`) when the payload length is not a multiple of 4. -/
def get_value_from_binary (fmt : NumberFormat) (data : List Nat) :
    Option (List F32) :=
  match data[1]? with
  | none => none
  | some c =>
    if 48 ≤ c ∧ c ≤ 57 then
      let numlenchars := c - 48
      match pyIntOfBytes ((data.drop 2).take numlenchars) with
      | none => none
      | some array_length =>
        let body := (data.drop (2 + numlenchars)).take array_length
        if body.length % 4 = 0 then
          some (unpackF32s (fmt = .binary_motorola) body)
        else none
    else none

/-! ### ASCII value decoding (`_get_value_from_ascii`) -/

/-- The value of a Python float literal, kept exact: finite literals as
rationals (the rounding to binary64 is not modelled; the payload values
of interest are exactly representable), plus the `inf`/`nan` forms that
`float()` accepts. -/
inductive PyFloat
  | fin (q : ℚ)
  | inf (neg : Bool)
  | nan
deriving DecidableEq, Repr

/-- ASCII whitespace stripped by Python's `float()`. -/
def isPySpace (c : Char) : Bool :=
  c = ' ' || c = '\t' || c = '\n' || c = '\r' || c = '\x0b' || c = '\x0c'

/-- Numeric value of a run of ASCII digits. -/
def digitsValC (l : List Char) : Nat :=
  l.foldl (fun a c => a * 10 + (c.toNat - 48)) 0

/-- Split off at most `n` leading decimal digits. -/
def takeDigitsUpTo : Nat → List Char → List Char × List Char
  | 0, s => ([], s)
  | _ + 1, [] => ([], [])
  | n + 1, c :: rest =>
    if c.isDigit then
      let (d, r) := takeDigitsUpTo n rest
      (c :: d, r)
    else ([], c :: rest)

/-- Python `float(str)`: strip surrounding whitespace, optional sign,
then either `inf`/`infinity`/`nan` (case-insensitive) or a decimal
literal `digits[.digits][e[sign]digits]` / `.digits[e[sign]digits]`.
`none` models the raised ValueError. (PEP-515 digit-group underscores
are not modelled; device payloads never contain them.) -/
def pyFloat (s : List Char) : Option PyFloat :=
  let t := ((s.dropWhile isPySpace).reverse.dropWhile isPySpace).reverse
  let (neg, core) :=
    match t with
    | '+' :: r => (false, r)
    | '-' :: r => (true, r)
    | r => (false, r)
  let low := core.map Char.toLower
  if low = [ 'i', 'n', 'f'] ∨ low = [ 'i', 'n', 'f', 'i', 'n', 'i', 't', 'y'] then
    some (.inf neg)
  else if low = [ 'n', 'a', 'n'] then
    some .nan
  else
    let (ip, r1) := core.span Char.isDigit
    let (fp, r2) :=
      match r1 with
      | '.' :: r => r.span Char.isDigit
      | r => ([], r)
    if ip = [] ∧ fp = [] then none
    else
      let finish : Bool → Nat → Option PyFloat := fun esNeg e =>
        let base : ℚ :=
          ((digitsValC ip * 10 ^ fp.length + digitsValC fp : Nat) : ℚ) /
            ((10 ^ fp.length : Nat) : ℚ)
        let scaled : ℚ :=
          if esNeg then base / ((10 ^ e : Nat) : ℚ)
          else base * ((10 ^ e : Nat) : ℚ)
        some (.fin (if neg then -scaled else scaled))
      match r2 with
      | [] => finish false 0
      | 'e' :: r3 =>
        match (match r3 with
               | '+' :: r4 => some (false, r4)
               | '-' :: r4 => some (true, r4)
               | r4 => some (false, r4)) with
        | some (esNeg, r4) =>
          let (ed, r5) := r4.span Char.isDigit
          if ed ≠ [] ∧ r5 = [] then finish esNeg (digitsValC ed) else none
        | none => none
      | 'E' :: r3 =>
        match (match r3 with
               | '+' :: r4 => some (false, r4)
               | '-' :: r4 => some (true, r4)
               | r4 => some (false, r4)) with
        | some (esNeg, r4) =>
          let (ed, r5) := r4.span Char.isDigit
          if ed ≠ [] ∧ r5 = [] then finish esNeg (digitsValC ed) else none
        | none => none
      | _ => none

/-- A parsed `datetime` with timezone: the fields `strptime` produces for
the format `%Y-%m-%dT%H:%M:%S.%f%z`; the offset is kept in minutes. -/
structure PyDatetime where
  year : Nat
  month : Nat
  day : Nat
  hour : Nat
  minute : Nat
  second : Nat
  microsecond : Nat
  offMinutes : Int
deriving DecidableEq, Repr

def isLeapYear (y : Nat) : Bool :=
  y % 4 = 0 && (y % 100 ≠ 0 || y % 400 = 0)

def daysInMonth (y m : Nat) : Nat :=
  if m = 1 ∨ m = 3 ∨ m = 5 ∨ m = 7 ∨ m = 8 ∨ m = 10 ∨ m = 12 then 31
  else if m = 2 then (if isLeapYear y then 29 else 28)
  else 30

/-- Expect one literal character. -/
def expectChar (c : Char) : List Char → Option (List Char)
  | x :: rest => if x = c then some rest else none
  | [] => none

/-- A 1-2 digit numeric field (the `%m`/`%d`/`%H`/`%M`/`%S` shapes). -/
def fld2 (s : List Char) : Option (Nat × List Char) :=
  match takeDigitsUpTo 2 s with
  | ([], _) => none
  | (ds, r) => some (digitsValC ds, r)

/-- `%Y-%m-%d`: a 4-digit year and 1-2 digit month and day. -/
def parseYMD (s : List Char) : Option (Nat × Nat × Nat × List Char) :=
  match takeDigitsUpTo 4 s with
  | (ys, r) =>
    if ys.length = 4 then
      (expectChar '-' r).bind fun r =>
        (fld2 r).bind fun mo =>
          (expectChar '-' mo.2).bind fun r =>
            (fld2 r).map fun d => (digitsValC ys, mo.1, d.1, d.2)
    else none

/-- `%H:%M:%S`: 1-2 digit hour, minute, second. -/
def parseHMS (s : List Char) : Option (Nat × Nat × Nat × List Char) :=
  (fld2 s).bind fun h =>
    (expectChar ':' h.2).bind fun r =>
      (fld2 r).bind fun mi =>
        (expectChar ':' mi.2).bind fun r =>
          (fld2 r).map fun sec => (h.1, mi.1, sec.1, sec.2)

/-- `.%f`: a dot and 1-6 fractional-second digits, zero-padded on the
right to a microsecond count. -/
def parseFrac (s : List Char) : Option (Nat × List Char) :=
  (expectChar '.' s).bind fun r =>
    match takeDigitsUpTo 6 r with
    | ([], _) => none
    | (fs, r2) => some (digitsValC fs * 10 ^ (6 - fs.length), r2)

/-- `%z` as it occurs here: `[+-]HH[:]?MM` consuming the rest of the
string (the optional offset-seconds sub-pattern of `%z` is not
modelled); the `timezone` constructor requires a strict 24-hour bound.
Returns the offset in minutes. -/
def parseOffMin (s : List Char) : Option Int :=
  match s with
  | sign :: r2 =>
    if sign = '+' ∨ sign = '-' then
      match takeDigitsUpTo 2 r2 with
      | (oh, r3) =>
        if oh.length = 2 then
          let r4 := match r3 with
                    | ':' :: tl => tl
                    | tl => tl
          match takeDigitsUpTo 2 r4 with
          | (om, r5) =>
            if om.length = 2 ∧ r5 = [] then
              let tot := 60 * digitsValC oh + digitsValC om
              if tot < 1440 then
                some (if sign = '-' then -(tot : Int) else (tot : Int))
              else none
            else none
        else none
    else none
  | [] => none

/-- The range checks of the `datetime` constructor (leap years
included; `%S` values 60-61 pass the regex but are rejected here, with
the same net effect). -/
def validDatetime (y mo d h mi sec : Nat) : Bool :=
  1 ≤ y && y ≤ 9999 && 1 ≤ mo && mo ≤ 12 && 1 ≤ d && d ≤ daysInMonth y mo
    && h ≤ 23 && mi ≤ 59 && sec ≤ 59

/-- `datetime.strptime(s, "%Y-%m-%dT%H:%M:%S.%f%z")`, modelled for this
one fixed format; the whole string must be consumed. `none` models the
raised ValueError. -/
def strptimeIsoTz (s : List Char) : Option PyDatetime :=
  (parseYMD s).bind fun ymd =>
    match ymd with
    | (y, mo, d, r) =>
      (expectChar 'T' r).bind fun r =>
        (parseHMS r).bind fun hms =>
          match hms with
          | (h, mi, sec, r) =>
            (parseFrac r).bind fun fr =>
              (parseOffMin fr.2).bind fun off =>
                if validDatetime y mo d h mi sec then
                  some ⟨y, mo, d, h, mi, sec, fr.1, off⟩
                else none

/-- `val.replace('"','')`: drop every double-quote character. -/
def removeQuotes (s : List Char) : List Char :=
  s.filter (fun c => c ≠ '"')

/-- `''.join(x.rsplit(':', 1))`: remove the last colon, if any. -/
def removeLastColon (s : List Char) : List Char :=
  let (after, rest) := s.reverse.span (fun c => c ≠ ':')
  match rest with
  | [] => s
  | _ :: before => before.reverse ++ after.reverse

/-- The timestamp pre-processing applied to one token before `strptime`:
`''.join(val.replace('"','').rsplit(':', 1))`. -/
def tsTransform (s : List Char) : List Char :=
  removeLastColon (removeQuotes s)

/-- One decoded ASCII token: float, timestamp, or the literal string. -/
inductive AsciiVal
  | num (f : PyFloat)
  | ts (t : PyDatetime)
  | str (s : List Char)
deriving DecidableEq, Repr

/-- Decode one comma-separated token, trying in the source's order:
`float(val)`, then `strptime` on the transformed token, else keep the
literal token. -/
def decodeAsciiToken (val : List Char) : AsciiVal :=
  match pyFloat val with
  | some f => .num f
  | none =>
    match strptimeIsoTz (tsTransform val) with
    | some t => .ts t
    | none => .str val

/-- `data.split(',')`: split on every comma, keeping empty pieces. -/
def splitComma (s : List Char) : List (List Char) :=
  match s with
  | [] => [[]]
  | c :: rest =>
    if c = ',' then [] :: splitComma rest
    else
      match splitComma rest with
      | t :: ts => (c :: t) :: ts
      | [] => [[c]]

/-- `OxygenSCPI._get_value_from_ascii(data)` from the source: split the
decoded payload on commas and decode each token (the per-token
`try/except` ladder is `decodeAsciiToken`). -/
def get_value_from_ascii (data : List Char) : List AsciiVal :=
  (splitComma data).map decodeAsciiToken

/-! ### Dimension grouping and the `getValues` pipeline -/

/-- One entry of the value list `getValues` returns when a DimensionSpec
is present: a scalar (`values.append(data[idx])`) or a vector slice
(`values.append(data[idx:idx+dim])`). -/
inductive GVal (α : Type) where
  | single (a : α)
  | arr (l : List α)
deriving DecidableEq, Repr

/-- The grouping loop of `getValues` (lines 355-367): walk the
DimensionSpec, consuming from `data` at a running index; `dim <= 1`
appends `data[idx]` (IndexError → `none`) and advances by one,
otherwise appends the slice `data[idx:idx+dim]` (Python slices truncate
silently) and advances by `dim`. -/
def groupAux {α : Type} (data : List α) : List Int → Nat → Option (List (GVal α))
  | [], _ => some []
  | d :: ds, idx =>
    if d ≤ 1 then
      match data[idx]? with
      | none => none
      | some v => (groupAux data ds (idx + 1)).map (GVal.single v :: ·)
    else
      (groupAux data ds (idx + d.toNat)).map
        (GVal.arr ((data.drop idx).take d.toNat) :: ·)

/-- What `getValues` returns after decoding: the grouped list when a
DimensionSpec is present, otherwise the flat decoded list unchanged. -/
inductive ValuesOut (α : Type) where
  | flat (l : List α)
  | grouped (l : List (GVal α))
deriving DecidableEq, Repr

/-- The tail of `getValues` (lines 355-369): with no stored dimension
(`self._value_dimension is None`) return the flat data, else run the
grouping loop (whose IndexError propagates: `none`). -/
def group_values {α : Type} (dims : Option (List Int)) (data : List α) :
    Option (ValuesOut α) :=
  match dims with
  | none => some (.flat data)
  | some dl => (groupAux data dl 0).map .grouped

/-- A decoded token of the flat sequence: a binary-path float or an
ASCII-path value. -/
inductive Tok
  | bin (f : F32)
  | asc (v : AsciiVal)
deriving DecidableEq, Repr

/-- How a `getValues` call ends: `noData` is the `return False` path
(no bytes answer from `_askRaw`), `crash` is an uncaught decode
exception propagating to the caller, `ok` is a returned value list. -/
inductive GetValuesResult
  | noData
  | crash
  | ok (v : ValuesOut Tok)
deriving DecidableEq, Repr

/-- The `b':NUM:VAL '` header bytes. -/
def numValHeader : List Nat :=
  (":NUM:VAL ".toList).map Char.toNat

/-- Header removal in `getValues`:
`if data.startswith(b':NUM:VAL '): data = data[9:]`. -/
def stripHeader (data : List Nat) : List Nat :=
  if numValHeader.isPrefixOf data then data.drop 9 else data

/-- Trailing-newline removal in `getValues`:
`if len(data) > 1 and data[-1] == ord('\n'): data = data[0:-1]`. -/
def stripTrailingNewline (data : List Nat) : List Nat :=
  if data.length > 1 ∧ data.getLast? = some 10 then data.dropLast else data

/-- `OxygenSCPI.getValues()` from the source, with the transport answer
passed explicitly (`none` = `_askRaw` returned `False`), the active
`self._value_format` and `self._value_dimension` as arguments: strip the
echoed header and trailing newline, decode binary (leading `#`, length
> 2) or ASCII (bytes decoded as characters), then apply the dimension
grouping. Decode exceptions (ValueError / struct.error / IndexError)
are not caught anywhere in `getValues` and propagate (`crash`). -/
def getValues (fmt : NumberFormat) (dims : Option (List Int))
    (answer : Option (List Nat)) : GetValuesResult :=
  match answer with
  | none => .noData
  | some raw =>
    let data := stripTrailingNewline (stripHeader raw)
    let toks? : Option (List Tok) :=
      if data.length > 2 ∧ data[0]? = some 35 then
        (get_value_from_binary fmt data).map (·.map Tok.bin)
      else
        some ((get_value_from_ascii (data.map Char.ofNat)).map Tok.asc)
    match toks? with
    | none => .crash
    | some toks =>
      match group_values dims toks with
      | none => .crash
      | some out => .ok out

/-- Modelled from the spec (claim C1's reading of the grouping rule):
consume the flat token list left to right; an entry `<= 1` consumes
exactly one token as a scalar, an entry `>= 2` consumes exactly that
many consecutive tokens as one vector; fails when tokens run out.
Returns the groups and the unconsumed remainder. -/
def groupSpecConsume {α : Type} : List Int → List α →
    Option (List (GVal α) × List α)
  | [], rest => some ([], rest)
  | d :: ds, rest =>
    if d ≤ 1 then
      match rest with
      | [] => none
      | t :: r =>
        (groupSpecConsume ds r).map (fun p => (GVal.single t :: p.1, p.2))
    else
      if rest.length < d.toNat then none
      else
        (groupSpecConsume ds (rest.drop d.toNat)).map
          (fun p => (GVal.arr (rest.take d.toNat) :: p.1, p.2))

/-! ### Connection manager: `connect`, `_sendRaw`, `_askRaw` -/

/-- The connection state: the stored socket handle `self._sock`
(`none` = Disconnected).  Sockets are identified by the number of the
connect attempt that created them. -/
structure Conn where
  sock : Option Nat
deriving DecidableEq, Repr

/-- Outcome of one `sock.connect(...)` call: success, raised
ConnectionRefusedError, or another raised OSError. -/
inductive ConnAttempt
  | ok
  | refused
  | oserror
deriving DecidableEq, Repr

/-- The retry loop of `OxygenSCPI.connect()` (lines 49-73), iterating
`numTry` over `range(1, self._CONN_NUM_TRY+1)` with the per-attempt
outcomes given by `f`.  Success stores the socket and returns True
(the header-off and version negotiation that follow catch their own
errors and cannot raise); ConnectionRefusedError returns False at once;
another OSError continues while `numTry < self._CONN_NUM_TRY`, else
returns False.  Neither failure branch assigns `self._sock`.  Returns
the state, the reported result and the number of attempts made; the
`[]` case is the loop's fall-through, unreachable for the real range. -/
def connectIter (st : Conn) (f : Nat → ConnAttempt) (maxTry : Nat) :
    List Nat → Conn × Bool × Nat
  | [] => (st, false, 0)
  | numTry :: rest =>
    match f numTry with
    | .ok => ({ sock := some numTry }, true, 1)
    | .refused => (st, false, 1)
    | .oserror =>
      if numTry < maxTry then
        let r := connectIter st f maxTry rest
        (r.1, r.2.1, r.2.2 + 1)
      else (st, false, 1)

/-- `OxygenSCPI.connect()` with `self._CONN_NUM_TRY = 3`. -/
def connect (st : Conn) (f : Nat → ConnAttempt) : Conn × Bool × Nat :=
  connectIter st f 3 [1, 2, 3]

/-- Outcome of one `sock.sendall(...)` call. -/
inductive SendEv
  | sent
  | oserror
deriving DecidableEq, Repr

/-- One `sock.recv(...)` event in the receive loop of `_askRaw`. -/
inductive RecvEv
  | chunk (l : List Nat)
  | oserror
deriving DecidableEq, Repr

/-- Result of the receive loop: a complete message, a raised OSError,
or the event list ran out (the loop would keep blocking; not reached in
any statement below). -/
inductive RecvOutcome
  | msg (l : List Nat)
  | raised
  | starved
deriving DecidableEq, Repr

/-- The receive loop of `_askRaw` (lines 107-112): accumulate chunks
into `answerMsg` and return it as soon as a chunk's last byte is the
newline terminator. -/
def recvLoop : List RecvEv → List Nat → RecvOutcome
  | [], _ => .starved
  | .oserror :: _, _ => .raised
  | .chunk d :: rest, acc =>
    if d.getLast? = some 10 then .msg (acc ++ d) else recvLoop rest (acc ++ d)

/-- `OxygenSCPI._sendRaw(cmd)` (lines 85-98): lazily reconnect when
`self._sock is None` (`connectSock` is the socket the nested `connect()`
call would store, `none` if it fails; its negotiation commands are
elided); then `sendall` — on OSError, `self.disconnect()` (which always
clears the handle) and return False.  Every OSError is caught, so the
function returns a Bool and never raises. -/
def sendRaw (st : Conn) (connectSock : Option Nat) (sendEv : SendEv) :
    Conn × Bool :=
  let st1 : Conn := if st.sock = none then { sock := connectSock } else st
  match st1.sock with
  | none => (st1, false)
  | some _ =>
    match sendEv with
    | .sent => (st1, true)
    | .oserror => ({ sock := none }, false)

/-- What `_askRaw` reports: the answer bytes, or the `False` value
(no socket, or a caught OSError). -/
inductive AskOutcome
  | answer (l : List Nat)
  | returnedFalse
deriving DecidableEq, Repr

/-- `OxygenSCPI._askRaw(cmd)` (lines 100-117): lazy reconnect, send,
then the receive loop; any OSError during send or receive triggers
`self.disconnect()` and the `return False` fall-through.  Every OSError
is caught, so the function reports a value and never raises.  The
starved receive case (the loop would block forever) is mapped to the
fall-through as well; no statement below relies on it. -/
def askRaw (st : Conn) (connectSock : Option Nat) (sendEv : SendEv)
    (recvEvs : List RecvEv) : Conn × AskOutcome :=
  let st1 : Conn := if st.sock = none then { sock := connectSock } else st
  match st1.sock with
  | none => (st1, .returnedFalse)
  | some _ =>
    match sendEv with
    | .oserror => ({ sock := none }, .returnedFalse)
    | .sent =>
      match recvLoop recvEvs [] with
      | .msg m => (st1, .answer m)
      | .raised => ({ sock := none }, .returnedFalse)
      | .starved => (st1, .returnedFalse)

/-! ### Version-gated operations -/

/-- The object fields the gated operations touch. -/
structure Ox where
  scpi_version : Int × Int
  value_format : NumberFormat
  elogChannelList : List String
deriving DecidableEq, Repr

/-- `'"'+'","'.join(names)+'"'`. -/
def quotedJoin (names : List String) : String :=
  "\"" ++ String.intercalate "\",\"" names ++ "\""

/-- `OxygenSCPI.setNumberFormat(format)` (lines 224-240): below
protocol version 1.20 raise NotImplementedError (`.error`) without
sending; otherwise send the format command and cache the value —
the Bool result of `_sendRaw` is discarded by the source, so the cache
is written even when the send failed (`_sendOk` is deliberately
unused).  Also returns the list of commands sent. -/
def setNumberFormat (st : Ox) (format : NumberFormat) (_sendOk : Bool) :
    Except String Ox × List String :=
  if ¬ is_minimum_version st.scpi_version (1, 20) then
    (.error "NotImplementedError", [])
  else
    let fmt := match format with
      | .binary_intel => "BIN_INTEL"
      | .binary_motorola => "BIN_MOTOROLA"
      | .ascii => "ASCII"
    (.ok { st with value_format := format }, [":NUM:NORMAL:FORMAT " ++ fmt])

/-- `OxygenSCPI.setElogChannels(channel_names)` (lines 489-524): below
protocol version 1.7 log a warning and return False without sending;
otherwise send the item list, query it back (`askAnswer` is the decoded
reply, `none` if `_askRaw` returned False), parse the echoed names, map
a lone `NONE` to the empty list, store the list, and succeed iff it is
non-empty.  Also returns the list of commands sent. -/
def setElogChannels (st : Ox) (channel_names : List String)
    (askAnswer : Option String) : Bool × Ox × List String :=
  if ¬ is_minimum_version st.scpi_version (1, 7) then
    (false, st, [])
  else
    let cmd1 := ":ELOG:ITEMS " ++ quotedJoin channel_names
    match askAnswer with
    | none => (false, st, [cmd1, ":ELOG:ITEMS?"])
    | some ret =>
      let r := (ret.trim).replace ":ELOG:ITEM " ""
      let names := (r.splitOn "\",\"").map (fun s => s.replace "\"" "")
      let names2 : List String := match names with
        | [n] => if n = "NONE" then [] else [n]
        | l => l
      (decide (names2.length ≠ 0), { st with elogChannelList := names2 },
       [cmd1, ":ELOG:ITEMS?"])

/-- `OxygenScpiDataStream.setItems(channelNames, streamGroup)` (lines
622-649): below protocol version 1.7 log a warning and return False
without sending; otherwise send the item list for the stream group,
query it back, parse the echoed names, map a lone `NONE` to the empty
list, store it as `self.ChannelList`, and succeed iff it is non-empty.
Returns the result, the stored list and the commands sent. -/
def dataStreamSetItems (st : Ox) (channelNames : List String)
    (streamGroup : Nat) (askAnswer : Option String) :
    Bool × List String × List String :=
  if ¬ is_minimum_version st.scpi_version (1, 7) then
    (false, [], [])
  else
    let item := ":DST:ITEM" ++ toString streamGroup
    let cmd1 := item ++ " " ++ quotedJoin channelNames
    match askAnswer with
    | none => (false, [], [cmd1, item ++ "?"])
    | some ret =>
      let r := (ret.trim).replace (item ++ " ") ""
      let names := (r.splitOn "\",\"").map (fun s => s.replace "\"" "")
      let names2 : List String := match names with
        | [n] => if n = "NONE" then [] else [n]
        | l => l
      (decide (names2.length ≠ 0), names2, [cmd1, item ++ "?"])

end OxygenSCPI

/-- C4: `is_minimum_version v m` holds iff `v.major > m.major` or
(`v.major = m.major` and `v.minor ≥ m.minor`); it is false whenever
`v.major < m.major`; it is reflexive; and it is monotone in each
component of `v` independently. -/
theorem c4_is_minimum_version :
    (∀ v m : Int × Int,
       OxygenSCPI.is_minimum_version v m = true ↔
         (v.1 > m.1 ∨ (v.1 = m.1 ∧ v.2 ≥ m.2))) ∧
    (∀ v m : Int × Int, v.1 < m.1 → OxygenSCPI.is_minimum_version v m = false) ∧
    (∀ v : Int × Int, OxygenSCPI.is_minimum_version v v = true) ∧
    (∀ (a a' b : Int) (m : Int × Int), a ≤ a' →
       OxygenSCPI.is_minimum_version (a, b) m = true →
       OxygenSCPI.is_minimum_version (a', b) m = true) ∧
    (∀ (a b b' : Int) (m : Int × Int), b ≤ b' →
       OxygenSCPI.is_minimum_version (a, b) m = true →
       OxygenSCPI.is_minimum_version (a, b') m = true) := by
  refine ⟨?_, ?_, ?_, ?_, ?_⟩
  · intro v m
    simp only [OxygenSCPI.is_minimum_version]
    split_ifs <;> simp <;> omega
  · intro v m h
    simp only [OxygenSCPI.is_minimum_version]
    split_ifs <;> first | rfl | omega
  · intro v
    simp only [OxygenSCPI.is_minimum_version]
    split_ifs <;> simp <;> omega
  · intro a a' b m h hmin
    simp only [OxygenSCPI.is_minimum_version] at *
    split_ifs at hmin ⊢ <;> simp_all <;> omega
  · intro a b b' m h hmin
    simp only [OxygenSCPI.is_minimum_version] at *
    split_ifs at hmin ⊢ <;> simp_all <;> omega

/-- Witness for C4 at concrete versions: (1,7) ≥ (1,7) via the iff,
and monotonicity from (1,6) ≥ (1,6) to (2,6) ≥ (1,6). -/
theorem c4_is_minimum_version_witness :
    OxygenSCPI.is_minimum_version (1, 7) (1, 7) = true ∧
    OxygenSCPI.is_minimum_version (2, 6) (1, 6) = true := by
  refine ⟨c4_is_minimum_version.2.2.1 (1, 7), ?_⟩
  exact c4_is_minimum_version.2.2.2.1 1 2 6 (1, 6) (by norm_num)
    (c4_is_minimum_version.2.2.1 (1, 6))

open OxygenSCPI

/-- Helper for C1: the spec-side consumer refines the source's grouping
loop — whenever the spec grouping succeeds on the tokens from index
`idx` on, the loop returns exactly those groups. -/
lemma groupSpecConsume_eq_groupAux {α : Type} (ds : List Int) :
    ∀ (data : List α) (idx : Nat) (p : List (GVal α) × List α),
      groupSpecConsume ds (data.drop idx) = some p →
      groupAux data ds idx = some p.1 := by
  induction ds with
  | nil =>
    intro data idx p h
    simp only [groupSpecConsume, Option.some.injEq] at h
    simp [groupAux, ← h]
  | cons d ds ih =>
    intro data idx p h
    simp only [groupSpecConsume] at h
    by_cases hd : d ≤ 1
    · rw [if_pos hd] at h
      cases hrest : data.drop idx with
      | nil => rw [hrest] at h; exact absurd h (by simp)
      | cons t r =>
        rw [hrest] at h
        rw [Option.map_eq_some'] at h
        obtain ⟨q, hq, hpq⟩ := h
        have hidx : data[idx]? = some t := by
          rw [← List.head?_drop, hrest]; rfl
        have hdrop : data.drop (idx + 1) = r := by
          have := List.drop_drop 1 idx data
          rw [hrest] at this
          simpa [Nat.add_comm] using this.symm
        rw [groupAux, if_pos hd, hidx]
        rw [← hdrop] at hq
        rw [ih data (idx + 1) q hq]
        simp [← hpq]
    · rw [if_neg hd] at h
      by_cases hlen : (data.drop idx).length < d.toNat
      · rw [if_pos hlen] at h; exact absurd h (by simp)
      · rw [if_neg hlen, Option.map_eq_some'] at h
        obtain ⟨q, hq, hpq⟩ := h
        have hdrop : (data.drop idx).drop d.toNat = data.drop (idx + d.toNat) := by
          rw [List.drop_drop]
        rw [hdrop] at hq
        rw [groupAux, if_neg hd]
        rw [ih data (idx + d.toNat) q hq]
        simp [← hpq]

/-- C1: the grouping loop of `getValues` refines the spec's rule — when
consuming the flat sequence in order with each entry `<= 1` taking one
token as a scalar and each entry `>= 2` taking that many consecutive
tokens as one vector succeeds, the loop returns exactly those groups;
with no DimensionSpec the flat sequence is returned unchanged; and the
full pipeline groups the payload `1.0,2.0,3.0,4.0,5.0` under spec
`[1, 3, 1]` into `[1.0, [2.0, 3.0, 4.0], 5.0]`. -/
theorem c1_dimension_grouping :
    (∀ (α : Type) (dims : List Int) (data : List α) (gs : List (GVal α))
       (rest : List α),
       groupSpecConsume dims data = some (gs, rest) →
       groupAux data dims 0 = some gs) ∧
    (∀ (α : Type) (data : List α),
       group_values none data = some (.flat data)) ∧
    getValues .ascii (some [1, 3, 1])
        (some ((":NUM:VAL 1.0,2.0,3.0,4.0,5.0\n".toList).map Char.toNat)) =
      .ok (.grouped
        [.single (.asc (.num (.fin 1))),
         .arr [.asc (.num (.fin 2)), .asc (.num (.fin 3)),
               .asc (.num (.fin 4))],
         .single (.asc (.num (.fin 5)))]) := by
  refine ⟨?_, ?_, ?_⟩
  · intro α dims data gs rest h
    have := groupSpecConsume_eq_groupAux dims data 0 (gs, rest)
    simp only [List.drop_zero] at this
    exact this h
  · intro α data
    rfl
  · simp [getValues, stripHeader, stripTrailingNewline, numValHeader,
      get_value_from_ascii, splitComma, decodeAsciiToken, pyFloat, isPySpace,
      digitsValC, group_values, groupAux, strptimeIsoTz, tsTransform,
      removeQuotes, removeLastColon, parseYMD, takeDigitsUpTo]
    norm_num

/-- Witness for C1 at a concrete input: the spec-side consumer succeeds
on tokens `[1, 2, 3, 4, 5]` with DimensionSpec `[1, 3, 1]`, so the
source's loop yields the claimed grouping. -/
theorem c1_dimension_grouping_witness :
    groupAux ([1, 2, 3, 4, 5] : List ℚ) [1, 3, 1] 0 =
      some [.single 1, .arr [2, 3, 4], .single 5] :=
  c1_dimension_grouping.1 ℚ [1, 3, 1] [1, 2, 3, 4, 5]
    [.single 1, .arr [2, 3, 4], .single 5] [] (by decide)

/-- Helper for C2: the number of decoded floats is the byte count
divided by 4. -/
lemma unpackF32s_length (big : Bool) (l : List Nat) :
    (unpackF32s big l).length = l.length / 4 := by
  induction l using unpackF32s.induct big with
  | case1 b0 b1 b2 b3 rest ih => simp [unpackF32s, ih]; omega
  | case2 l h =>
    cases l with
    | nil => simp [unpackF32s]
    | cons a t => cases t with
      | nil => simp [unpackF32s]
      | cons b t2 => cases t2 with
        | nil => simp [unpackF32s]
        | cons c t3 => cases t3 with
          | nil => simp [unpackF32s]
          | cons e t4 => exact absurd rfl (h a b c e t4)

/-- C2: a payload laid out as `#`, one ASCII digit `d`, a `d`-character
decimal byte count `N`, and `N` payload bytes decodes to the flat list
of binary32 values of the consecutive 4-byte groups, little-endian
unless the format is BINARY_MOTOROLA; the decoded list has `N/4`
entries; and `#14<00 00 80 3f>` decodes to `[1.0]` (big-endian variant
`#14<3f 80 00 00>` likewise under BINARY_MOTOROLA). -/
theorem c2_binary_decode :
    (∀ (fmt : NumberFormat) (d N : Nat) (lenBytes body rest : List Nat),
       d ≤ 9 → lenBytes.length = d → pyIntOfBytes lenBytes = some N →
       body.length = N → N % 4 = 0 →
       get_value_from_binary fmt (35 :: (48 + d) :: (lenBytes ++ body ++ rest)) =
         some (unpackF32s (fmt = .binary_motorola) body)) ∧
    (∀ (big : Bool) (l : List Nat), (unpackF32s big l).length = l.length / 4) ∧
    get_value_from_binary .ascii [35, 49, 52, 0, 0, 128, 63] =
      some [.finite 1] ∧
    get_value_from_binary .binary_intel [35, 49, 52, 0, 0, 128, 63] =
      some [.finite 1] ∧
    get_value_from_binary .binary_motorola [35, 49, 52, 63, 128, 0, 0] =
      some [.finite 1] := by
  refine ⟨?_, unpackF32s_length, ?_, ?_, ?_⟩
  · intro fmt d N lenBytes body rest hd hlen hparse hbody hmul
    simp only [get_value_from_binary, List.append_assoc, List.getElem?_cons_succ,
      List.getElem?_cons_zero, List.drop_succ_cons, List.drop_zero]
    rw [if_pos ⟨by omega, by omega⟩]
    rw [show 48 + d - 48 = d from by omega]
    rw [List.take_left' hlen, hparse]
    rw [show 2 + d = d + 2 from by omega]
    simp only [List.drop_succ_cons]
    rw [List.drop_left' hlen, List.take_left' hbody]
    rw [if_pos (hbody ▸ hmul)]
  · simp [get_value_from_binary, pyIntOfBytes, unpackF32s, wordOfBytes, f32OfBits]
  · simp [get_value_from_binary, pyIntOfBytes, unpackF32s, wordOfBytes, f32OfBits]
  · simp [get_value_from_binary, pyIntOfBytes, unpackF32s, wordOfBytes, f32OfBits]

/-- Witness for C2 at a concrete layout: `#`, digit 1, length "4",
four bytes of a little-endian 1.0, decoded under the default format. -/
theorem c2_binary_decode_witness :
    get_value_from_binary .ascii (35 :: (48 + 1) :: ([52] ++ [0, 0, 128, 63] ++ [])) =
      some (unpackF32s false [0, 0, 128, 63]) := by
  have h := c2_binary_decode.1 .ascii 1 4 [52] [0, 0, 128, 63] []
    (by decide) (by decide) (by decide) (by decide) (by decide)
  simpa using h

/-- C3: ASCII decoding splits the payload on commas and decodes each
token by trying, in order, Python `float`, then ISO-8601 `strptime`
after removing quotes and the offset's final colon, else the literal
token; the quoted token `"2017-10-10T12:16:52.33136+02:00"` decodes to
the timestamp 2017-10-10 12:16:52.331360 at UTC offset +120 minutes,
and `NONE` stays the literal string. -/
theorem c3_ascii_decode :
    (∀ data : List Char,
       get_value_from_ascii data = (splitComma data).map decodeAsciiToken) ∧
    (∀ (t : List Char) (f : PyFloat),
       pyFloat t = some f → decodeAsciiToken t = .num f) ∧
    (∀ (t : List Char) (ts : PyDatetime), pyFloat t = none →
       strptimeIsoTz (tsTransform t) = some ts → decodeAsciiToken t = .ts ts) ∧
    (∀ t : List Char, pyFloat t = none → strptimeIsoTz (tsTransform t) = none →
       decodeAsciiToken t = .str t) ∧
    decodeAsciiToken ("\"2017-10-10T12:16:52.33136+02:00\"".toList) =
      .ts ⟨2017, 10, 10, 12, 16, 52, 331360, 120⟩ ∧
    decodeAsciiToken ("NONE".toList) = .str ("NONE".toList) := by
  refine ⟨fun _ => rfl, ?_, ?_, ?_, by decide, by decide⟩
  · intro t f h
    simp [decodeAsciiToken, h]
  · intro t ts h1 h2
    simp [decodeAsciiToken, h1, h2]
  · intro t h1 h2
    simp [decodeAsciiToken, h1, h2]

/-- Witness for C3 at a concrete token: `1.5` parses as the float 3/2,
so the decoder returns it as a number. -/
theorem c3_ascii_decode_witness :
    pyFloat ("1.5".toList) = some (.fin (3 / 2)) ∧
    decodeAsciiToken ("1.5".toList) = .num (.fin (3 / 2)) := by
  have h : pyFloat ("1.5".toList) = some (.fin (3 / 2)) := by
    simp [pyFloat, isPySpace, digitsValC]
    norm_num
  exact ⟨h, c3_ascii_decode.2.1 _ _ h⟩

/-- C5: the connect loop makes at most 3 attempts; a
ConnectionRefusedError aborts at once with a failure report and no
further attempts; other OSErrors retry, with failure reported after
the third; a success stores the socket and reports True — in
particular two transient failures then a success end Connected, and a
refusal on the first attempt ends after exactly that one attempt. -/
theorem c5_connect_retry :
    (∀ (f : Nat → ConnAttempt) (st : Conn), (connect st f).2.2 ≤ 3) ∧
    (∀ (f : Nat → ConnAttempt) (st : Conn), f 1 = .refused →
       connect st f = (st, false, 1)) ∧
    (∀ (f : Nat → ConnAttempt) (st : Conn), f 1 = .ok →
       connect st f = ({ sock := some 1 }, true, 1)) ∧
    (∀ (f : Nat → ConnAttempt) (st : Conn), f 1 = .oserror → f 2 = .ok →
       connect st f = ({ sock := some 2 }, true, 2)) ∧
    (∀ (f : Nat → ConnAttempt) (st : Conn), f 1 = .oserror → f 2 = .oserror →
       f 3 = .ok → connect st f = ({ sock := some 3 }, true, 3)) ∧
    (∀ (f : Nat → ConnAttempt) (st : Conn), f 1 = .oserror → f 2 = .refused →
       connect st f = (st, false, 2)) ∧
    (∀ (f : Nat → ConnAttempt) (st : Conn), f 1 = .oserror → f 2 = .oserror →
       f 3 = .refused → connect st f = (st, false, 3)) ∧
    (∀ (f : Nat → ConnAttempt) (st : Conn), f 1 = .oserror → f 2 = .oserror →
       f 3 = .oserror → connect st f = (st, false, 3)) := by
  refine ⟨?_, ?_, ?_, ?_, ?_, ?_, ?_, ?_⟩
  · intro f st
    cases hf1 : f 1 <;> cases hf2 : f 2 <;> cases hf3 : f 3 <;>
      simp [connect, connectIter, hf1, hf2, hf3]
  all_goals intro f st
  all_goals intro h1
  · simp [connect, connectIter, h1]
  · simp [connect, connectIter, h1]
  · intro h2; simp [connect, connectIter, h1, h2]
  · intro h2 h3; simp [connect, connectIter, h1, h2, h3]
  · intro h2; simp [connect, connectIter, h1, h2]
  · intro h2 h3; simp [connect, connectIter, h1, h2, h3]
  · intro h2 h3; simp [connect, connectIter, h1, h2, h3]

/-- Witness for C5: with outcomes (oserror, oserror, ok) the loop ends
Connected after 3 attempts; with (refused, ...) it ends Disconnected
after exactly 1. -/
theorem c5_connect_retry_witness :
    connect { sock := none }
        (fun n => if n ≤ 2 then .oserror else .ok) =
      ({ sock := some 3 }, true, 3) ∧
    connect { sock := none } (fun _ => .refused) =
      ({ sock := none }, false, 1) := by
  constructor
  · exact c5_connect_retry.2.2.2.2.1 _ _ (by decide) (by decide) (by decide)
  · exact c5_connect_retry.2.1 _ _ (by decide)

/-- C6 counterexample: the claim says malformed or truncated payloads
surface the "no data" failure result; in fact `getValues` has no
handler around the decode or grouping code, so the IndexError from a
flat sequence shorter than the DimensionSpec, and the ValueError from a
non-digit binary length field, propagate to the caller (`crash`),
which is a different outcome from the `noData` failure report. -/
theorem c6_counterexample :
    getValues .ascii (some [1, 1]) (some (("1.0".toList).map Char.toNat)) =
      .crash ∧
    getValues .ascii none
        (some (("#a4".toList).map Char.toNat ++ [0, 0, 128, 63])) = .crash ∧
    GetValuesResult.crash ≠ GetValuesResult.noData := by
  refine ⟨by decide, by decide, by decide⟩

/-- C6 amended: `getValues` reports "no data" (`False`) exactly when
the transport layer produced no bytes answer; malformed or truncated
payloads instead raise — the grouping IndexError and the binary
length-field ValueError propagate uncaught to the caller. -/
theorem c6_amended_decode_failures :
    (∀ (fmt : NumberFormat) (dims : Option (List Int))
       (ans : Option (List Nat)),
       getValues fmt dims ans = .noData ↔ ans = none) ∧
    getValues .ascii (some [2, 1])
        (some (("1.0,2.0".toList).map Char.toNat)) = .crash ∧
    getValues .binary_intel none
        (some (("#x4".toList).map Char.toNat ++ [0, 0, 128, 63])) = .crash := by
  refine ⟨?_, by decide, by decide⟩
  intro fmt dims ans
  cases ans with
  | none => simp [getValues]
  | some raw =>
    have hne : getValues fmt dims (some raw) ≠ .noData := by
      simp only [getValues]
      split
      · simp
      · split <;> simp
    simp [hne]

/-- Witness for C6 (amended): the no-bytes answer is reported as
"no data". -/
theorem c6_amended_decode_failures_witness :
    getValues .ascii none none = .noData :=
  (c6_amended_decode_failures.1 .ascii none none).mpr rfl

/-- C7: each version-gated operation checks the stored protocol version
before sending; below the minimum (1.20 for the number format, 1.7 for
ELOG channels and data-stream items) it fails at once — NotImplementedError
for the format, a logged warning and `False` for the other two — with
no command sent. -/
theorem c7_version_gating :
    (∀ (st : Ox) (fmt : NumberFormat) (sendOk : Bool),
       is_minimum_version st.scpi_version (1, 20) = false →
       setNumberFormat st fmt sendOk = (.error "NotImplementedError", [])) ∧
    (∀ (st : Ox) (names : List String) (ans : Option String),
       is_minimum_version st.scpi_version (1, 7) = false →
       setElogChannels st names ans = (false, st, [])) ∧
    (∀ (st : Ox) (names : List String) (g : Nat) (ans : Option String),
       is_minimum_version st.scpi_version (1, 7) = false →
       dataStreamSetItems st names g ans = (false, [], [])) := by
  refine ⟨?_, ?_, ?_⟩
  · intro st fmt sendOk h
    simp [setNumberFormat, h]
  · intro st names ans h
    simp [setElogChannels, h]
  · intro st names g ans h
    simp [dataStreamSetItems, h]

/-- Witness for C7 at the constructor-default version (1, 5), which is
below both gates. -/
theorem c7_version_gating_witness :
    setNumberFormat ⟨(1, 5), .ascii, []⟩ .binary_intel true =
      (.error "NotImplementedError", []) ∧
    setElogChannels ⟨(1, 5), .ascii, []⟩ ["Ch1"] none =
      (false, ⟨(1, 5), .ascii, []⟩, []) ∧
    dataStreamSetItems ⟨(1, 5), .ascii, []⟩ ["Ch1"] 1 none =
      (false, [], []) :=
  ⟨c7_version_gating.1 _ _ _ (by decide),
   c7_version_gating.2.1 _ _ _ (by decide),
   c7_version_gating.2.2 _ _ _ _ (by decide)⟩

/-- C8: an OSError during a send or a receive makes the call discard
the stored socket (Disconnected) and report the `False` failure value —
every OSError is caught, so nothing is raised — and a later call with
no stored socket triggers the lazy reconnect. -/
theorem c8_transport_error_disconnect :
    (∀ (st : Conn) (cg : Option Nat) (s : Nat), st.sock = some s →
       sendRaw st cg .oserror = ({ sock := none }, false)) ∧
    (∀ (st : Conn) (cg : Option Nat) (s : Nat) (evs : List RecvEv),
       st.sock = some s →
       askRaw st cg .oserror evs = ({ sock := none }, .returnedFalse)) ∧
    (∀ (st : Conn) (cg : Option Nat) (s : Nat) (evs : List RecvEv),
       st.sock = some s → recvLoop evs [] = .raised →
       askRaw st cg .sent evs = ({ sock := none }, .returnedFalse)) ∧
    (∀ k : Nat,
       sendRaw { sock := none } (some k) .sent = ({ sock := some k }, true)) := by
  refine ⟨?_, ?_, ?_, fun _ => rfl⟩
  · intro st cg s hs
    simp [sendRaw, hs]
  · intro st cg s evs hs
    simp [askRaw, hs]
  · intro st cg s evs hs hr
    simp [askRaw, hs, hr]

/-- Witness for C8: a live socket, an erroring send / an erroring
receive, and the concrete disconnected results. -/
theorem c8_transport_error_disconnect_witness :
    sendRaw { sock := some 1 } none .oserror = ({ sock := none }, false) ∧
    askRaw { sock := some 1 } none .sent [.oserror] =
      ({ sock := none }, .returnedFalse) :=
  ⟨c8_transport_error_disconnect.1 _ none 1 rfl,
   c8_transport_error_disconnect.2.2.1 _ none 1 _ rfl rfl⟩

/-- C9 counterexample: the claim says every response beginning with a
colon-prefixed command-path header token and one space has that token
stripped; `getValues` only compares against the literal `:NUM:VAL `
prefix, so the response `:NUM:NORM:VAL 1.5` — which begins with the
colon-prefixed token `:NUM:NORM:VAL` and one space — is passed through
unstripped and decodes to the literal string token instead of the bare
payload `1.5`. -/
theorem c9_counterexample :
    stripHeader ((":NUM:NORM:VAL 1.5".toList).map Char.toNat) =
      ((":NUM:NORM:VAL 1.5".toList).map Char.toNat) ∧
    getValues .ascii none
        (some ((":NUM:NORM:VAL 1.5\n".toList).map Char.toNat)) =
      .ok (.flat [.asc (.str (":NUM:NORM:VAL 1.5".toList))]) := by
  refine ⟨by decide, by decide⟩

/-- C9 amended: `getValues` strips exactly the literal 9-byte
`:NUM:VAL ` header when present (leaving the bare payload) and passes
every other response through unmodified — responses echoing any other
colon-prefixed header token are not stripped. -/
theorem c9_amended_header_strip :
    (∀ rest : List Nat, stripHeader (numValHeader ++ rest) = rest) ∧
    (∀ data : List Nat, ¬ numValHeader.isPrefixOf data →
       stripHeader data = data) := by
  constructor
  · intro rest
    have hpre : numValHeader.isPrefixOf (numValHeader ++ rest) := by
      rw [List.isPrefixOf_iff_prefix]
      exact List.prefix_append _ _
    simp only [stripHeader, hpre, if_pos]
    exact List.drop_left' (by decide)
  · intro data h
    simp [stripHeader, h]

/-- Witness for C9 (amended): the `:NUM:VAL ` header followed by the
byte `1` is stripped to that byte; a headerless payload is unchanged. -/
theorem c9_amended_header_strip_witness :
    stripHeader (numValHeader ++ [49]) = [49] ∧
    stripHeader [49, 46, 53] = [49, 46, 53] :=
  ⟨c9_amended_header_strip.1 [49],
   c9_amended_header_strip.2 [49, 46, 53] (by decide)⟩

/-- C10: with protocol version at least 1.20, `setNumberFormat` caches
the requested format unconditionally after issuing the command — the
`_sendRaw` result is discarded, so the outcome is identical whether the
send succeeded or failed — and subsequent binary decodes use the cached
byte order: after caching BINARY_MOTOROLA, the big-endian block for 1.0
decodes to `[1.0]` while the little-endian block for 1.0 does not. -/
theorem c10_format_cached_unconditionally :
    (∀ (st : Ox) (fmt : NumberFormat) (sendOk : Bool),
       is_minimum_version st.scpi_version (1, 20) = true →
       (setNumberFormat st fmt sendOk).1 =
         .ok { st with value_format := fmt }) ∧
    (∀ (st : Ox) (fmt : NumberFormat),
       setNumberFormat st fmt true = setNumberFormat st fmt false) ∧
    (∀ (st : Ox) (sendOk : Bool) (st' : Ox) (cmds : List String),
       setNumberFormat st .binary_motorola sendOk = (.ok st', cmds) →
       get_value_from_binary st'.value_format [35, 49, 52, 63, 128, 0, 0] =
           some [.finite 1] ∧
       get_value_from_binary st'.value_format [35, 49, 52, 0, 0, 128, 63] ≠
           some [.finite 1]) := by
  refine ⟨?_, fun _ _ => rfl, ?_⟩
  · intro st fmt sendOk h
    simp [setNumberFormat, h]
  · intro st sendOk st' cmds h
    rw [setNumberFormat] at h
    split at h
    · simp at h
    · rw [Prod.mk.injEq] at h
      obtain ⟨h1, -⟩ := h
      rw [Except.ok.injEq] at h1
      subst h1
      constructor
      · simp [get_value_from_binary, pyIntOfBytes, unpackF32s, wordOfBytes,
          f32OfBits]
      · simp [get_value_from_binary, pyIntOfBytes, unpackF32s, wordOfBytes,
          f32OfBits]
        norm_num

/-- Witness for C10 at a concrete state with version (1, 20) and a
failed send: the format is cached anyway and drives the byte order. -/
theorem c10_format_cached_unconditionally_witness :
    (setNumberFormat ⟨(1, 20), .ascii, []⟩ .binary_motorola false).1 =
      .ok ⟨(1, 20), .binary_motorola, []⟩ ∧
    get_value_from_binary NumberFormat.binary_motorola
        [35, 49, 52, 63, 128, 0, 0] = some [.finite 1] :=
  ⟨c10_format_cached_unconditionally.1 _ .binary_motorola false (by decide),
   (c10_format_cached_unconditionally.2.2 ⟨(1, 20), .ascii, []⟩ false
      ⟨(1, 20), .binary_motorola, []⟩ [":NUM:NORMAL:FORMAT BIN_MOTOROLA"]
      rfl).1⟩
